import Mathlib

/-!
Shallow embedding of the LOLcode-to-HTML compiler in src/src/main.rs and
verification of its specification claims.

The program consists of a lexer (LolLexer::tokenize, lines 266-314), a token
cursor (LolCompiler::next_token / current_token, lines 182-205), and a
recursive-descent parser-emitter (impl SyntaxAnalyzer for LolCompiler,
lines 318-573) that appends HTML fragments to an output buffer and keeps a
flat variable table.

Modelling conventions:
- Rust process-exit on error is modelled by an error-carrying result type
  PResult; a fatal diagnostic becomes a PResult.err carrying the message.
- The while-loops of the parser are modelled with an explicit fuel
  parameter; PResult.diverge is returned when the fuel runs out, so
  genuine non-termination of a loop shows up as (for all fuel, diverge).
- Rust String operations (eq_ignore_ascii_case, starts_with, trim,
  to_uppercase) are given small executable models on String.data so that
  every definition evaluates inside the kernel.
- The HashMap variable table is modelled as an association list where
  insertion prepends and lookup takes the first match, matching the
  observable overwrite semantics of HashMap::insert / get.
- LolState carries one ghost field, listInvoked, set only at the entry of
  parse_list; it instruments the claim that the List productions are
  unreachable and has no influence on any other field.
-/

/-- ASCII lowercase of a string, character by character. Char.toLower only
affects A-Z, exactly like Rust to_ascii_lowercase. -/
def lowerStr (s : String) : String := ⟨s.data.map Char.toLower⟩

/-- Model of Rust str::eq_ignore_ascii_case. -/
def eqIgnoreCase (a b : String) : Bool := lowerStr a == lowerStr b

/-- ASCII uppercase of a string; models Rust to_uppercase as used by the
parser, whose dispatch tokens are all ASCII. -/
def upperStr (s : String) : String := ⟨s.data.map Char.toUpper⟩

/-- Model of Rust str::starts_with (string prefix). -/
def strStartsWith (s pre : String) : Bool := pre.data.isPrefixOf s.data

/-- Model of Rust char::is_whitespace: true exactly on the code points
with the Unicode White_Space property (0009-000D, 0020, 0085, 00A0,
1680, 2000-200A, 2028, 2029, 202F, 205F, 3000). Note this is wider than
the four characters the lexer splits tokens on, so characters such as
VT (000B) or FF (000C) can reach a token and still be trimmed. -/
def rustWhitespace (c : Char) : Bool :=
  (0x09 ≤ c.toNat && c.toNat ≤ 0x0D) || c.toNat == 0x20 || c.toNat == 0x85 ||
  c.toNat == 0xA0 || c.toNat == 0x1680 || (0x2000 ≤ c.toNat && c.toNat ≤ 0x200A) ||
  c.toNat == 0x2028 || c.toNat == 0x2029 || c.toNat == 0x202F ||
  c.toNat == 0x205F || c.toNat == 0x3000

/-- Model of Rust str::trim: drop Unicode whitespace from both ends. -/
def trimStr (s : String) : String :=
  ⟨((s.data.dropWhile rustWhitespace).reverse.dropWhile rustWhitespace).reverse⟩

/-- Model of Rust char::is_ascii: code point at most 127. -/
def asciiChar (c : Char) : Bool := c.toNat ≤ 127

deriving instance DecidableEq for Except

/-- LolLexer::is_whitespace (main.rs 226-228). -/
def is_whitespace (c : Char) : Bool := c == ' ' || c == '\t' || c == '\n' || c == '\r'

/-- LolLexer::is_special (main.rs 231-233). -/
def is_special (c : Char) : Bool := c == '#'

/-- The character class consumed greedily after a # (main.rs 290). -/
def urlChar (c : Char) : Bool :=
  c.isAlphanum || c == ':' || c == '/' || c == '.' || c == '?' || c == '=' ||
  c == '&' || c == '-' || c == '%'

/-- LolLexer::lookup (main.rs 256-263): the fixed keyword table, compared
case-insensitively. -/
def lookup (s : String) : Bool :=
  ["#HAI", "#KTHXBYE", "#OBTW", "#TLDR", "#MAEK", "#OIC", "#GIMMEH", "#MKAY", "#LEMME",
   "#I", "HAZ", "#IT", "IZ", "HEAD", "TITLE", "BOLD", "ITALICS", "NEWLINE", "SOUNDZ",
   "VIDZ", "PARAGRAF", "LIST", "ITEM", "SEE"].any (fun v => eqIgnoreCase v s)

/-- The acceptance test applied to a candidate special token
(main.rs 298): keyword lookup succeeds or the token starts with http. -/
def tokenAccepted (t : String) : Bool := lookup t || strStartsWith t "http"

/-- Flush the pending lexeme as one plain token if it is non-empty
(main.rs 273-276, 281-284, 309-311). -/
def flushTok (toks : List String) (lexeme : String) : List String :=
  if lexeme == "" then toks else toks ++ [lexeme]

/-- LolLexer::tokenize (main.rs 266-314), one character per step. The Bool
argument is the scanning mode: false while building a plain lexeme
(the outer while let loop), true while greedily consuming a candidate
special token that began with a # (the inner while loop at 289-296);
in special mode the String argument is the candidate built so far.
On an unaccepted candidate the lexer fails fatally with a diagnostic
naming the token (main.rs 298-301). -/
def tokenizeAux : List Char → Bool → String → List String → Except String (List String)
  | [], false, lexeme, toks => .ok (flushTok toks lexeme)
  | [], true, tok, toks =>
    if tokenAccepted tok then .ok (toks ++ [tok])
    else .error ("Lexical Error: Invalid token " ++ tok)
  | c :: cs, false, lexeme, toks =>
    if is_whitespace c then tokenizeAux cs false "" (flushTok toks lexeme)
    else if is_special c then tokenizeAux cs true (String.singleton c) (flushTok toks lexeme)
    else tokenizeAux cs false (lexeme.push c) toks
  | c :: cs, true, tok, toks =>
    if urlChar c then tokenizeAux cs true (tok.push c) toks
    else if tokenAccepted tok then
      (if is_whitespace c then tokenizeAux cs false "" (toks ++ [tok])
       else if is_special c then tokenizeAux cs true (String.singleton c) (toks ++ [tok])
       else tokenizeAux cs false (String.singleton c) (toks ++ [tok]))
    else .error ("Lexical Error: Invalid token " ++ tok)

/-- LolLexer::tokenize entry point: scan the whole source left to right. -/
def tokenize (source : String) : Except String (List String) :=
  tokenizeAux source.data false "" []

/-- State of LolCompiler (main.rs 107-113), plus the ghost field
listInvoked used only to express reachability of parse_list. -/
structure LolState where
  tokens : List String
  currentIndex : Nat
  current : String
  vars : List (String × String)
  htmlOutput : String
  listInvoked : Bool
deriving DecidableEq

/-- Result of a parsing step: success with the new state, a fatal
diagnostic (Rust process::exit from LolCompiler::error), or fuel
exhaustion marking a loop that did not finish. -/
inductive PResult (α : Type) where
  | ok : α → PResult α
  | err : String → PResult α
  | diverge : PResult α
deriving DecidableEq

/-- Sequencing of parsing steps: errors and divergence propagate. -/
def PResult.bind {α β : Type} : PResult α → (α → PResult β) → PResult β
  | .ok a, k => k a
  | .err e, _ => .err e
  | .diverge, _ => .diverge

/-- LolCompiler::current_token (main.rs 198-200). -/
def current_token (s : LolState) : String := s.current

/-- LolCompiler::next_token (main.rs 182-190): advance to the next index
if one exists, otherwise collapse the current token to the empty string. -/
def next_token (s : LolState) : LolState :=
  if s.currentIndex + 1 < s.tokens.length then
    { s with currentIndex := s.currentIndex + 1, current := s.tokens.getD (s.currentIndex + 1) "" }
  else
    { s with current := "" }

/-- LolCompiler::set_current_token (main.rs 203-205). -/
def set_current_token (s : LolState) (tok : String) : LolState := { s with current := tok }

/-- LolCompiler::match_token (main.rs 135-141): case-insensitive compare
with the expected literal; advance on success, fatal error on mismatch. -/
def match_token (expected : String) (s : LolState) : PResult LolState :=
  if eqIgnoreCase (current_token s) expected then .ok (next_token s)
  else .err ("Syntax Error: Expected " ++ expected ++ ", found " ++ current_token s)

/-- HashMap::insert on the association-list model of the variable table. -/
def insertVar (vars : List (String × String)) (name v : String) : List (String × String) :=
  (name, v) :: vars

/-- HashMap::get on the association-list model of the variable table. -/
def lookupVar (vars : List (String × String)) (name : String) : Option String :=
  (vars.find? (fun p => p.1 == name)).map (fun p => p.2)

/-- The four punctuation tokens special-cased by parse_text (main.rs 556). -/
def isPunct (t : String) : Bool := t == "." || t == "," || t == "!" || t == "?"

/-- LolCompiler::parse_text (main.rs 553-567): a plain token must not begin
with # and must be pure ASCII; punctuation is appended with no trailing
space, every other plain token with exactly one trailing space. -/
def parse_text (s : LolState) : PResult LolState :=
  if !strStartsWith (current_token s) "#" && (current_token s).data.all asciiChar then
    if isPunct (current_token s) then
      .ok (next_token { s with htmlOutput := s.htmlOutput ++ current_token s })
    else .ok (next_token { s with htmlOutput := s.htmlOutput ++ current_token s ++ " " })
  else .err ("Syntax Error: Expected text, found " ++ current_token s)

/-- LolCompiler::parse_newline (main.rs 546-550). -/
def parse_newline (s : LolState) : PResult LolState :=
  (match_token "NEWLINE" s).bind (fun s => .ok { s with htmlOutput := s.htmlOutput ++ "<br/>\n" })

/-- LolCompiler::parse_audio (main.rs 516-528). -/
def parse_audio (s : LolState) : PResult LolState :=
  (match_token "SOUNDZ" s).bind (fun s =>
    (match_token "#MKAY" (next_token s)).bind (fun s2 =>
      .ok { s2 with htmlOutput := s2.htmlOutput ++
        "<audio controls>\n  <source src=\"" ++ current_token s ++ "\" type=\"audio/mpeg\">\n</audio>\n" }))

/-- LolCompiler::parse_video (main.rs 531-543). -/
def parse_video (s : LolState) : PResult LolState :=
  (match_token "VIDZ" s).bind (fun s =>
    (match_token "#MKAY" (next_token s)).bind (fun s2 =>
      .ok { s2 with htmlOutput := s2.htmlOutput ++
        "<video controls>\n  <source src=\"" ++ current_token s ++ "\" type=\"video/mp4\">\n</video>\n" }))

/-- LolCompiler::parse_variable_use (main.rs 445-460): after LEMME SEE name
MKAY, look the name up; if present append its value and then one space,
if absent fail fatally naming the variable. -/
def parse_variable_use (s : LolState) : PResult LolState :=
  (match_token "#LEMME" s).bind (fun s =>
  (match_token "SEE" s).bind (fun s =>
    (match_token "#MKAY" (next_token s)).bind (fun s2 =>
      match lookupVar s2.vars (current_token s) with
      | some val => .ok { s2 with htmlOutput := s2.htmlOutput ++ val ++ " " }
      | none => .err ("Syntax Error: Undefined variable " ++ current_token s))))

/-- The token-collection while-loop shared textually by parse_title
(main.rs 351-355), parse_comment (365-369) and parse_variable_define
(435-439): accumulate current plus one space until the current token
case-insensitively equals the closing keyword. The loop does not test
for the end-of-stream sentinel, so it consumes fuel forever once the
stream is exhausted. -/
def collect_loop : Nat → String → String → LolState → PResult (String × LolState)
  | 0, _, _, _ => .diverge
  | fuel + 1, closing, acc, s =>
    if eqIgnoreCase (current_token s) closing then .ok (acc, s)
    else collect_loop fuel closing (acc ++ current_token s ++ " ") (next_token s)

/-- LolCompiler::parse_title (main.rs 347-359). -/
def parse_title (fuel : Nat) (s : LolState) : PResult LolState :=
  (match_token "#GIMMEH" s).bind (fun s =>
  (match_token "TITLE" s).bind (fun s =>
  (collect_loop fuel "#MKAY" "" s).bind (fun p =>
  (match_token "#MKAY" p.2).bind (fun s =>
  .ok { s with htmlOutput := s.htmlOutput ++
    "<html><head><title>" ++ trimStr p.1 ++ "</title></head><body>\n" }))))

/-- LolCompiler::parse_comment (main.rs 362-372): collect and discard. -/
def parse_comment (fuel : Nat) (s : LolState) : PResult LolState :=
  (match_token "#OBTW" s).bind (fun s =>
  (collect_loop fuel "#TLDR" "" s).bind (fun p =>
  match_token "#TLDR" p.2))

/-- LolCompiler::parse_variable_define (main.rs 427-442): capture the name
after HAZ, collect the value tokens after IZ, store the trimmed joined
value, then match the closing MKAY. -/
def parse_variable_define (fuel : Nat) (s : LolState) : PResult LolState :=
  (match_token "#I" s).bind (fun s =>
  (match_token "HAZ" s).bind (fun s =>
    (match_token "#IT" (next_token s)).bind (fun s2 =>
    (match_token "IZ" s2).bind (fun s3 =>
    (collect_loop fuel "#MKAY" "" s3).bind (fun p =>
    match_token "#MKAY"
      { p.2 with vars := insertVar p.2.vars (current_token s) (trimStr p.1) })))))

/-- The inner while-loop shared textually by parse_bold (main.rs 466-470)
and parse_italics (479-483): append every token followed by one space
until MKAY or the end-of-stream sentinel. -/
def span_loop : Nat → LolState → PResult LolState
  | 0, _ => .diverge
  | fuel + 1, s =>
    if !eqIgnoreCase (current_token s) "#MKAY" && !(current_token s == "") then
      span_loop fuel (next_token { s with htmlOutput := s.htmlOutput ++ current_token s ++ " " })
    else .ok s

/-- LolCompiler::parse_bold (main.rs 463-473). -/
def parse_bold (fuel : Nat) (s : LolState) : PResult LolState :=
  (match_token "BOLD" s).bind (fun s =>
  (span_loop fuel { s with htmlOutput := s.htmlOutput ++ "<b>" }).bind (fun s =>
  (match_token "#MKAY" s).bind (fun s =>
  .ok { s with htmlOutput := s.htmlOutput ++ "</b>" })))

/-- LolCompiler::parse_italics (main.rs 476-486). -/
def parse_italics (fuel : Nat) (s : LolState) : PResult LolState :=
  (match_token "ITALICS" s).bind (fun s =>
  (span_loop fuel { s with htmlOutput := s.htmlOutput ++ "<i>" }).bind (fun s =>
  (match_token "#MKAY" s).bind (fun s =>
  .ok { s with htmlOutput := s.htmlOutput ++ "</i>" })))

/-- LolCompiler::parse_inner_text (main.rs 407-424): dispatch on the
uppercased current token. -/
def parse_inner_text (fuel : Nat) (s : LolState) : PResult LolState :=
  match upperStr (current_token s) with
  | "#GIMMEH" =>
    (match upperStr (current_token (next_token s)) with
     | "BOLD" => parse_bold fuel (next_token s)
     | "ITALICS" => parse_italics fuel (next_token s)
     | "NEWLINE" => parse_newline (next_token s)
     | "SOUNDZ" => parse_audio (next_token s)
     | "VIDZ" => parse_video (next_token s)
     | _ => .err "Syntax Error: Unknown GIMMEH construct")
  | "#LEMME" => parse_variable_use s
  | "#I" => parse_variable_define fuel s
  | _ => parse_text s

/-- LolCompiler::parse_inner_list (main.rs 511-513). -/
def parse_inner_list (fuel : Nat) (s : LolState) : PResult LolState :=
  parse_inner_text fuel s

/-- LolCompiler::parse_list_items (main.rs 499-508). -/
def list_items_loop : Nat → LolState → PResult LolState
  | 0, _ => .diverge
  | fuel + 1, s =>
    if eqIgnoreCase (current_token s) "#GIMMEH" then
      (match_token "#GIMMEH" s).bind (fun s =>
      (match_token "ITEM" s).bind (fun s =>
      (parse_inner_list fuel { s with htmlOutput := s.htmlOutput ++ "<li>" }).bind (fun s =>
      (match_token "#MKAY" { s with htmlOutput := s.htmlOutput ++ "</li>\n" }).bind (fun s =>
      list_items_loop fuel s))))
    else .ok s

/-- LolCompiler::parse_list (main.rs 489-496). The ghost flag listInvoked
is set at entry and nowhere else in the development. -/
def parse_list (fuel : Nat) (s : LolState) : PResult LolState :=
  (match_token "#MAEK" { s with listInvoked := true }).bind (fun s =>
  (match_token "LIST" s).bind (fun s =>
  (list_items_loop fuel { s with htmlOutput := s.htmlOutput ++ "<ul>\n" }).bind (fun s =>
  match_token "#OIC" { s with htmlOutput := s.htmlOutput ++ "</ul>\n" })))

/-- LolCompiler::parse_inner_paragraph (main.rs 400-404). -/
def inner_paragraph_loop : Nat → LolState → PResult LolState
  | 0, _ => .diverge
  | fuel + 1, s =>
    if !eqIgnoreCase (current_token s) "#OIC" && !(current_token s == "") then
      (parse_inner_text fuel s).bind (inner_paragraph_loop fuel)
    else .ok s

/-- LolCompiler::parse_paragraph (main.rs 390-397). -/
def parse_paragraph (fuel : Nat) (s : LolState) : PResult LolState :=
  (match_token "#MAEK" s).bind (fun s =>
  (match_token "PARAGRAF" s).bind (fun s =>
  (inner_paragraph_loop fuel { s with htmlOutput := s.htmlOutput ++ "<p>" }).bind (fun s =>
  match_token "#OIC" { s with htmlOutput := s.htmlOutput ++ "</p>\n" })))

/-- The while-loop of LolCompiler::parse_body (main.rs 376-384):
dispatch on the uppercased current token until KTHXBYE or the
end-of-stream sentinel. -/
def body_loop : Nat → LolState → PResult LolState
  | 0, _ => .diverge
  | fuel + 1, s =>
    if !eqIgnoreCase (current_token s) "#KTHXBYE" && !(current_token s == "") then
      (match upperStr (current_token s) with
       | "#MAEK" => parse_paragraph fuel s
       | "#GIMMEH" => parse_inner_text fuel s
       | "#LEMME" => parse_variable_use s
       | "#I" => parse_variable_define fuel s
       | _ => parse_text s).bind (body_loop fuel)
    else .ok s

/-- LolCompiler::parse_body (main.rs 375-387): run the body loop then
emit the closing body and html tags once. -/
def parse_body (fuel : Nat) (s : LolState) : PResult LolState :=
  (body_loop fuel s).bind (fun s => .ok { s with htmlOutput := s.htmlOutput ++ "</body></html>" })

/-- The comment repetition loop of LolCompiler::parse_lolcode
(main.rs 322-324). -/
def comment_star : Nat → LolState → PResult LolState
  | 0, _ => .diverge
  | fuel + 1, s =>
    if eqIgnoreCase (current_token s) "#OBTW" then
      (parse_comment fuel s).bind (comment_star fuel)
    else .ok s

/-- The scanning while-loop of LolCompiler::parse_head (main.rs 335-341):
invoke parse_title at GIMMEH, otherwise silently skip one token, until
OIC. It does not test for the end-of-stream sentinel. -/
def head_loop : Nat → LolState → PResult LolState
  | 0, _ => .diverge
  | fuel + 1, s =>
    if !eqIgnoreCase (current_token s) "#OIC" then
      (if eqIgnoreCase (current_token s) "#GIMMEH" then
        (parse_title fuel s).bind (head_loop fuel)
       else head_loop fuel (next_token s))
    else .ok s

/-- LolCompiler::parse_head (main.rs 331-344): the HEAD section is
optional; when present it is scanned by head_loop. -/
def parse_head (fuel : Nat) (s : LolState) : PResult LolState :=
  if eqIgnoreCase (current_token s) "#MAEK" then
    (match_token "#MAEK" s).bind (fun s =>
    (match_token "HEAD" s).bind (fun s =>
    (head_loop fuel s).bind (fun s =>
    match_token "#OIC" s)))
  else .ok s

/-- LolCompiler::parse_lolcode (main.rs 320-328): the Program production. -/
def parse_lolcode (fuel : Nat) (s : LolState) : PResult LolState :=
  (match_token "#HAI" s).bind (fun s =>
  (comment_star fuel s).bind (fun s =>
  (parse_head fuel s).bind (fun s =>
  (parse_body fuel s).bind (fun s =>
  match_token "#KTHXBYE" s))))

/-- Initial compiler state over a token sequence (main.rs 156-157). -/
def initState (toks : List String) : LolState :=
  { tokens := toks, currentIndex := 0, current := toks.getD 0 "",
    vars := [], htmlOutput := "", listInvoked := false }

/-- The core of LolCompiler::compile (main.rs 148-158): tokenize, fail on
an empty token stream, then parse from the first token. File output and
browser launch are external boundary effects and are not modelled. -/
def compile (source : String) (fuel : Nat) : PResult LolState :=
  match tokenize source with
  | .error e => .err e
  | .ok toks =>
    if toks.isEmpty then .err "Syntax Error: Empty input file."
    else parse_lolcode fuel (initState toks)

/-- Extract the HTML buffer of a successful compilation. -/
def resultHtml : PResult LolState → Option String
  | .ok s => some s.htmlOutput
  | .err _ => none
  | .diverge => none

/-- Substring test on the character lists of the two strings. -/
def containsSubAux (pat : List Char) : List Char → Bool
  | [] => pat.isPrefixOf []
  | c :: cs => pat.isPrefixOf (c :: cs) || containsSubAux pat cs

/-- Whether pat occurs as a contiguous substring of s. -/
def containsSub (s pat : String) : Bool := containsSubAux pat.data s.data

example : tokenize "#HAI hello world #KTHXBYE" = .ok ["#HAI", "hello", "world", "#KTHXBYE"] := by
  decide

example : resultHtml (compile "#HAI #I HAZ X #IT IZ hi #MKAY #LEMME SEE X #MKAY #KTHXBYE" 100)
    = some "hi </body></html>" := by
  decide

example : compile "#HAI #LEMME SEE Y #MKAY #KTHXBYE" 100 = .err "Syntax Error: Undefined variable Y" := by
  decide

example : trimStr "\x0Bx " = "x" := by decide

example : resultHtml (compile "#HAI #I HAZ X #IT IZ \x0Bx #MKAY #LEMME SEE X #MKAY #KTHXBYE" 100)
    = some "x </body></html>" := by
  decide

/-- C2: compiling the scenario-1 source succeeds and the HTML buffer is
exactly the title line, a newline, and the body text followed by the
closing tags. Fuel 100 bounds the loop iterations, which this input
needs fewer than. -/
theorem C2_end_to_end :
    resultHtml (compile "#HAI #MAEK HEAD #GIMMEH TITLE My Page #MKAY #OIC Hello world #KTHXBYE" 100)
      = some "<html><head><title>My Page</title></head><body>\nHello world </body></html>" := by
  decide

/-- C7: whenever lexing yields zero tokens, compile fails with the
empty-input diagnostic; the error is raised before parse_lolcode ever
runs, so no state (HTML buffer, symbol table) is ever constructed. -/
theorem C7_empty_input (source : String) (fuel : Nat)
    (h : tokenize source = .ok []) :
    compile source fuel = .err "Syntax Error: Empty input file." := by
  simp [compile, h]

/-- Witness for C7 at a whitespace-only source. -/
theorem C7_empty_input_witness :
    tokenize "  " = .ok [] ∧ compile "  " 5 = .err "Syntax Error: Empty input file." :=
  ⟨by decide, C7_empty_input "  " 5 (by decide)⟩

/-- C8: the cursor operations. When a next index exists, next_token moves
to it and exposes that token; otherwise it collapses the current token to
the empty sentinel, is idempotent from then on, and current_token (which
never moves the position) returns the empty token. -/
theorem C8_cursor (s : LolState) :
    (s.currentIndex + 1 < s.tokens.length →
      next_token s = { s with currentIndex := s.currentIndex + 1,
                              current := s.tokens.getD (s.currentIndex + 1) "" }) ∧
    (¬ s.currentIndex + 1 < s.tokens.length →
      next_token s = { s with current := "" } ∧
      next_token (next_token s) = next_token s ∧
      current_token (next_token s) = "") ∧
    current_token s = s.current := by
  refine ⟨fun h => ?_, fun h => ?_, rfl⟩
  · simp [next_token, h]
  · have h1 : next_token s = { s with current := "" } := by simp [next_token, h]
    refine ⟨h1, ?_, ?_⟩
    · rw [h1]
      simp [next_token, h]
    · rw [h1]
      rfl

/-- Witness for C8: an advance in the middle of the stream, and the
idempotent collapse at the end of the stream. -/
theorem C8_cursor_witness :
    next_token (LolState.mk ["a", "b"] 0 "a" [] "" false) = LolState.mk ["a", "b"] 1 "b" [] "" false ∧
    next_token (next_token (LolState.mk ["a"] 0 "a" [] "" false))
      = next_token (LolState.mk ["a"] 0 "a" [] "" false) := by
  constructor
  · have h := (C8_cursor (LolState.mk ["a", "b"] 0 "a" [] "" false)).1 (by decide)
    simpa using h
  · exact ((C8_cursor (LolState.mk ["a"] 0 "a" [] "" false)).2.1 (by decide)).2.1

/-- C1 counterexample: the candidate special token #https://example.com is
rejected by the lexer with a fatal lexical error, although the claim says
it tokenizes without one. The starts-with-http exemption can never fire
because every candidate starts with the # character. -/
theorem C1_counterexample :
    tokenize "#https://example.com"
      = .error "Lexical Error: Invalid token #https://example.com" := by
  decide

/-- The state of the lexer at the end of a greedy candidate run: the
finished candidate tokF is validated; on acceptance it is emitted and
scanning resumes at rest exactly as the outer loop of tokenize would,
on rejection the lexer stops with the fatal diagnostic naming tokF. -/
def specialStep (tokF : String) (rest : List Char) (toks : List String) :
    Except String (List String) :=
  if tokenAccepted tokF then
    match rest with
    | [] => .ok (toks ++ [tokF])
    | c :: cs =>
      if is_whitespace c then tokenizeAux cs false "" (toks ++ [tokF])
      else if is_special c then tokenizeAux cs true (String.singleton c) (toks ++ [tokF])
      else tokenizeAux cs false (String.singleton c) (toks ++ [tokF])
  else .error ("Lexical Error: Invalid token " ++ tokF)

/-- Rebuilding a string from its character list is the identity. -/
theorem strMk_data (s : String) : (⟨s.data⟩ : String) = s := by
  cases s
  rfl

/-- Pushing a character appends it to the character list. -/
theorem strPush_data (s : String) (c : Char) : (s.push c).data = s.data ++ [c] := by
  cases s
  rfl

/-- The greedy candidate loop consumes exactly the maximal urlChar prefix
and then behaves as specialStep on the finished candidate. -/
theorem tokenizeAux_special_run (cs : List Char) :
    ∀ (tok : String) (toks : List String),
      tokenizeAux cs true tok toks =
        specialStep ⟨tok.data ++ cs.takeWhile urlChar⟩ (cs.dropWhile urlChar) toks := by
  induction cs with
  | nil =>
    intro tok toks
    simp [specialStep, strMk_data, tokenizeAux]
  | cons c cs ih =>
    intro tok toks
    by_cases hc : urlChar c = true
    · rw [show tokenizeAux (c :: cs) true tok toks = tokenizeAux cs true (tok.push c) toks by
        simp [tokenizeAux, hc]]
      rw [ih]
      simp [List.takeWhile_cons, List.dropWhile_cons, hc, strPush_data, List.append_assoc]
    · rw [List.takeWhile_cons, List.dropWhile_cons]
      simp only [hc, Bool.false_eq_true, if_false, ite_false]
      simp only [List.append_nil, strMk_data]
      simp [tokenizeAux, specialStep, hc]

/-- C1 amended: the candidate formed at a # is the # plus the maximal run
of urlChar characters, and its fate is decided by tokenAccepted via
specialStep (acceptance emits it and continues, rejection is the fatal
lexical error naming it, with no token list in the result). Since every
candidate starts with the # character, the starts-with-http disjunct of
tokenAccepted is vacuous and acceptance is exactly case-insensitive
membership in the keyword table. -/
theorem C1_accept_iff_keyword :
    (∀ t : String, strStartsWith t "#" = true → tokenAccepted t = lookup t) ∧
    (∀ (cs : List Char) (lexeme : String) (toks : List String),
      tokenizeAux ('#' :: cs) false lexeme toks =
        specialStep ⟨'#' :: cs.takeWhile urlChar⟩ (cs.dropWhile urlChar) (flushTok toks lexeme)) := by
  constructor
  · intro t ht
    have hd : ∃ u, t.data = '#' :: u := by
      rcases h : t.data with _ | ⟨c, u⟩
      · rw [strStartsWith, h] at ht
        simp [List.isPrefixOf] at ht
      · rw [strStartsWith, h] at ht
        simp [List.isPrefixOf] at ht
        exact ⟨u, by rw [← ht]⟩
    rcases hd with ⟨u, hu⟩
    have hhttp : strStartsWith t "http" = false := by
      rw [strStartsWith, hu]
      simp [List.isPrefixOf]
    rw [tokenAccepted, hhttp, Bool.or_false]
  · intro cs lexeme toks
    rw [show tokenizeAux ('#' :: cs) false lexeme toks
          = tokenizeAux cs true (String.singleton '#') (flushTok toks lexeme) by
        simp [tokenizeAux, is_whitespace, is_special]]
    rw [tokenizeAux_special_run]
    rfl

/-- Witness for C1 amended, at the rejected URL-style candidate and at a
concrete candidate run. -/
theorem C1_accept_iff_keyword_witness :
    tokenAccepted "#https://example.com" = lookup "#https://example.com" ∧
    tokenizeAux ('#' :: "FOO x".data) false "" [] =
      specialStep ⟨'#' :: ("FOO x".data.takeWhile urlChar)⟩ ("FOO x".data.dropWhile urlChar)
        (flushTok [] "") :=
  ⟨C1_accept_iff_keyword.1 "#https://example.com" (by decide),
   C1_accept_iff_keyword.2 "FOO x".data "" []⟩

/-- C4 counterexample: in the successful compilation of a source whose
only plain token is the punctuation token between BOLD and MKAY, the
buffer receives that token followed by an injected space inside the bold
span, contradicting the claim that punctuation is never followed by an
injected space inside BOLD spans. -/
theorem C4_counterexample :
    resultHtml (compile "#HAI #GIMMEH BOLD . #MKAY #KTHXBYE" 100)
      = some "<b>. </b></body></html>" ∧
    containsSub "<b>. </b></body></html>" ". " = true := by
  constructor
  · decide
  · decide

/-- A compiler state whose cursor stands at the first token of R, with the
already-consumed tokens A to its left. All cursor states reached while
parsing a production have this shape until the stream is exhausted. -/
def mkSt (A R : List String) (V : List (String × String)) (H : String) (g : Bool) : LolState :=
  { tokens := A ++ R, currentIndex := A.length, current := R.headD "",
    vars := V, htmlOutput := H, listInvoked := g }

/-- Advancing from the head of a non-exhausted stream moves the consumed
token to the left part. -/
theorem next_token_mkSt (A : List String) (t : String) (R : List String)
    (V : List (String × String)) (H : String) (g : Bool) (hR : R ≠ []) :
    next_token (mkSt A (t :: R) V H g) = mkSt (A ++ [t]) R V H g := by
  rcases R with _ | ⟨r, R⟩
  · exact absurd rfl hR
  · unfold next_token mkSt
    rw [if_pos (by simp)]
    have hget : (A ++ t :: r :: R).getD (A.length + 1) "" = r := by
      rw [List.getD_append_right _ _ _ _ (by omega)]
      simp
    simp [hget]
    rw [List.getElem_append_right (by omega)]
    simp

/-- The current token of a cursor standing at the head of t :: R is t. -/
theorem current_token_mkSt (A : List String) (t : String) (R : List String)
    (V : List (String × String)) (H : String) (g : Bool) :
    current_token (mkSt A (t :: R) V H g) = t := rfl

/-- Overwriting the variable table of an mkSt state. -/
theorem mkSt_set_vars (A R : List String) (V : List (String × String)) (H : String) (g : Bool)
    (V2 : List (String × String)) : { mkSt A R V H g with vars := V2 } = mkSt A R V2 H g := rfl

/-- Overwriting the HTML buffer of an mkSt state. -/
theorem mkSt_set_html (A R : List String) (V : List (String × String)) (H : String) (g : Bool)
    (H2 : String) : { mkSt A R V H g with htmlOutput := H2 } = mkSt A R V H2 g := rfl

/-- Projections of an mkSt state. -/
theorem mkSt_html (A R : List String) (V : List (String × String)) (H : String) (g : Bool) :
    (mkSt A R V H g).htmlOutput = H := rfl

/-- The variable table of an mkSt state. -/
theorem mkSt_vars (A R : List String) (V : List (String × String)) (H : String) (g : Bool) :
    (mkSt A R V H g).vars = V := rfl

/-- A successful match_token consumes the head token. -/
theorem match_token_mkSt (expected t : String) (A R : List String)
    (V : List (String × String)) (H : String) (g : Bool)
    (h : eqIgnoreCase t expected = true) (hR : R ≠ []) :
    match_token expected (mkSt A (t :: R) V H g) = .ok (mkSt (A ++ [t]) R V H g) := by
  have hc : current_token (mkSt A (t :: R) V H g) = t := rfl
  unfold match_token
  rw [hc, if_pos h, next_token_mkSt A t R V H g hR]

/-- The left fold that the token-collection and span loops perform on
their accumulator: every collected token contributes itself plus exactly
one trailing space. -/
def joinSpFrom (acc : String) (vals : List String) : String :=
  vals.foldl (fun a v => a ++ v ++ " ") acc

/-- Running collect_loop over the tokens vals up to a closing token c0:
it accumulates every token of vals with one trailing space and stops with
the cursor on c0. Needs fuel exceeding the number of collected tokens. -/
theorem collect_loop_run (closing : String) :
    ∀ (vals A post : List String) (c0 acc : String)
      (V : List (String × String)) (H : String) (g : Bool) (fuel : Nat),
      (∀ v ∈ vals, eqIgnoreCase v closing = false) →
      eqIgnoreCase c0 closing = true →
      vals.length < fuel →
      collect_loop fuel closing acc (mkSt A (vals ++ c0 :: post) V H g) =
        .ok (joinSpFrom acc vals, mkSt (A ++ vals) (c0 :: post) V H g) := by
  intro vals
  induction vals with
  | nil =>
    intro A post c0 acc V H g fuel hv hc hf
    obtain ⟨f, rfl⟩ : ∃ f, fuel = f + 1 := ⟨fuel - 1, by omega⟩
    simp only [List.nil_append]
    unfold collect_loop
    rw [show current_token (mkSt A (c0 :: post) V H g) = c0 from rfl, if_pos hc]
    simp [joinSpFrom]
  | cons v vs ih =>
    intro A post c0 acc V H g fuel hv hc hf
    obtain ⟨f, rfl⟩ : ∃ f, fuel = f + 1 := ⟨fuel - 1, by omega⟩
    have hv1 : eqIgnoreCase v closing = false := hv v (by simp)
    have hcur : current_token (mkSt A ((v :: vs) ++ c0 :: post) V H g) = v := rfl
    unfold collect_loop
    rw [hcur, hv1]
    simp only [Bool.false_eq_true, if_false]
    rw [show (mkSt A ((v :: vs) ++ c0 :: post) V H g) = (mkSt A (v :: (vs ++ c0 :: post)) V H g) from rfl]
    rw [next_token_mkSt A v (vs ++ c0 :: post) V H g (by simp)]
    rw [ih (A ++ [v]) post c0 (acc ++ v ++ " ") V H g f (fun w hw => hv w (by simp [hw])) hc (by simpa using hf)]
    simp [joinSpFrom, mkSt, List.append_assoc]

/-- Running the bold/italics span loop over the tokens vals up to the
closing c0: every token of vals, punctuation included, is appended to the
HTML buffer with exactly one trailing space. -/
theorem span_loop_run :
    ∀ (vals A post : List String) (c0 : String)
      (V : List (String × String)) (H : String) (g : Bool) (fuel : Nat),
      (∀ v ∈ vals, eqIgnoreCase v "#MKAY" = false ∧ (v == "") = false) →
      eqIgnoreCase c0 "#MKAY" = true →
      vals.length < fuel →
      span_loop fuel (mkSt A (vals ++ c0 :: post) V H g) =
        .ok (mkSt (A ++ vals) (c0 :: post) V (joinSpFrom H vals) g) := by
  intro vals
  induction vals with
  | nil =>
    intro A post c0 V H g fuel hv hc hf
    obtain ⟨f, rfl⟩ : ∃ f, fuel = f + 1 := ⟨fuel - 1, by omega⟩
    simp only [List.nil_append]
    unfold span_loop
    rw [show current_token (mkSt A (c0 :: post) V H g) = c0 from rfl, hc]
    simp [joinSpFrom]
  | cons v vs ih =>
    intro A post c0 V H g fuel hv hc hf
    obtain ⟨f, rfl⟩ : ∃ f, fuel = f + 1 := ⟨fuel - 1, by omega⟩
    obtain ⟨hv1, hv2⟩ := hv v (by simp)
    have hcur : current_token (mkSt A ((v :: vs) ++ c0 :: post) V H g) = v := rfl
    unfold span_loop
    rw [hcur, hv1, hv2]
    simp only [Bool.not_false, Bool.and_self, if_true]
    rw [show ({ mkSt A ((v :: vs) ++ c0 :: post) V H g with
          htmlOutput := (mkSt A ((v :: vs) ++ c0 :: post) V H g).htmlOutput ++ v ++ " " })
        = mkSt A (v :: (vs ++ c0 :: post)) V (H ++ v ++ " ") g from rfl]
    rw [next_token_mkSt A v (vs ++ c0 :: post) V (H ++ v ++ " ") g (by simp)]
    rw [ih (A ++ [v]) post c0 V (H ++ v ++ " ") g f (fun w hw => hv w (by simp [hw])) hc (by simpa using hf)]
    simp [joinSpFrom, mkSt, List.append_assoc]

/-- C9 counterexample: a successful compilation whose HTML buffer contains
the substring the claim forbids; the verbatim plain token route of
parse_text puts it there even though parse_list never runs. -/
theorem C9_counterexample :
    resultHtml (compile "#HAI <ul> #KTHXBYE" 100) = some "<ul> </body></html>" ∧
    containsSub "<ul> </body></html>" "<ul>" = true := by
  constructor
  · decide
  · decide


/-- C3: the variable productions. A VarDefine stores the trimmed,
space-joined value tokens under the name that follows HAZ, leaving the
HTML buffer untouched; a VarUse of a name present in the table appends
the stored value plus exactly one trailing space to the buffer; a VarUse
of an absent name is the fatal undefined-variable error naming it, so no
successful state (and in particular no buffer append) results from the
lookup; and looking up a name right after defining it yields the value
just stored. -/
theorem C3_define_then_use :
    (∀ (A post : List String) (N : String) (vals : List String)
       (V : List (String × String)) (H : String) (g : Bool) (fuel : Nat),
      (∀ v ∈ vals, eqIgnoreCase v "#MKAY" = false) →
      post ≠ [] →
      vals.length < fuel →
      parse_variable_define fuel
          (mkSt A ("#I" :: "HAZ" :: N :: "#IT" :: "IZ" :: (vals ++ "#MKAY" :: post)) V H g) =
        .ok (mkSt (A ++ "#I" :: "HAZ" :: N :: "#IT" :: "IZ" :: (vals ++ ["#MKAY"])) post
              (insertVar V N (trimStr (joinSpFrom "" vals))) H g)) ∧
    (∀ (A post : List String) (N v : String)
       (V : List (String × String)) (H : String) (g : Bool),
      lookupVar V N = some v → post ≠ [] →
      parse_variable_use (mkSt A ("#LEMME" :: "SEE" :: N :: "#MKAY" :: post) V H g) =
        .ok (mkSt (A ++ ["#LEMME", "SEE", N, "#MKAY"]) post V (H ++ v ++ " ") g)) ∧
    (∀ (A post : List String) (N : String)
       (V : List (String × String)) (H : String) (g : Bool),
      lookupVar V N = none → post ≠ [] →
      parse_variable_use (mkSt A ("#LEMME" :: "SEE" :: N :: "#MKAY" :: post) V H g) =
        .err ("Syntax Error: Undefined variable " ++ N)) ∧
    (∀ (V : List (String × String)) (N val : String),
      lookupVar (insertVar V N val) N = some val) := by
  refine ⟨?_, ?_, ?_, ?_⟩
  · intro A post N vals V H g fuel hv hp hf
    unfold parse_variable_define
    rw [match_token_mkSt "#I" "#I" A _ V H g (by decide) (by simp)]
    simp only [PResult.bind]
    rw [match_token_mkSt "HAZ" "HAZ" (A ++ ["#I"]) _ V H g (by decide) (by simp)]
    simp only [PResult.bind, current_token_mkSt]
    rw [next_token_mkSt ((A ++ ["#I"]) ++ ["HAZ"]) N _ V H g (by simp)]
    rw [match_token_mkSt "#IT" "#IT" (((A ++ ["#I"]) ++ ["HAZ"]) ++ [N]) _ V H g (by decide) (by simp)]
    simp only [PResult.bind]
    rw [match_token_mkSt "IZ" "IZ" ((((A ++ ["#I"]) ++ ["HAZ"]) ++ [N]) ++ ["#IT"]) _ V H g
      (by decide) (by simp)]
    simp only [PResult.bind]
    rw [collect_loop_run "#MKAY" vals _ post "#MKAY" "" V H g fuel hv (by decide) hf]
    simp only [PResult.bind, mkSt_vars, mkSt_set_vars]
    rw [match_token_mkSt "#MKAY" "#MKAY" _ post (insertVar V N (trimStr (joinSpFrom "" vals))) H g
      (by decide) hp]
    simp [mkSt, insertVar, List.append_assoc]
  · intro A post N v V H g hN hp
    unfold parse_variable_use
    rw [match_token_mkSt "#LEMME" "#LEMME" A _ V H g (by decide) (by simp)]
    simp only [PResult.bind]
    rw [match_token_mkSt "SEE" "SEE" (A ++ ["#LEMME"]) _ V H g (by decide) (by simp)]
    simp only [PResult.bind, current_token_mkSt]
    rw [next_token_mkSt ((A ++ ["#LEMME"]) ++ ["SEE"]) N _ V H g (by simp)]
    rw [match_token_mkSt "#MKAY" "#MKAY" (((A ++ ["#LEMME"]) ++ ["SEE"]) ++ [N]) _ V H g
      (by decide) hp]
    simp only [PResult.bind, mkSt_vars, hN, mkSt_html]
    simp [mkSt, List.append_assoc]
  · intro A post N V H g hN hp
    unfold parse_variable_use
    rw [match_token_mkSt "#LEMME" "#LEMME" A _ V H g (by decide) (by simp)]
    simp only [PResult.bind]
    rw [match_token_mkSt "SEE" "SEE" (A ++ ["#LEMME"]) _ V H g (by decide) (by simp)]
    simp only [PResult.bind, current_token_mkSt]
    rw [next_token_mkSt ((A ++ ["#LEMME"]) ++ ["SEE"]) N _ V H g (by simp)]
    rw [match_token_mkSt "#MKAY" "#MKAY" (((A ++ ["#LEMME"]) ++ ["SEE"]) ++ [N]) _ V H g
      (by decide) hp]
    simp only [PResult.bind, mkSt_vars, hN]
  · intro V N val
    simp [lookupVar, insertVar]

/-- Witness for C3: defining X as hi then using it appends hi plus one
space; using the undefined Y fails naming Y; the freshly stored value is
the one looked up. -/
theorem C3_define_then_use_witness :
    parse_variable_define 5
        (mkSt [] ["#I", "HAZ", "X", "#IT", "IZ", "hi", "#MKAY", "#KTHXBYE"] [] "" false) =
      .ok (mkSt ["#I", "HAZ", "X", "#IT", "IZ", "hi", "#MKAY"] ["#KTHXBYE"]
            (insertVar [] "X" (trimStr (joinSpFrom "" ["hi"]))) "" false) ∧
    parse_variable_use
        (mkSt [] ["#LEMME", "SEE", "X", "#MKAY", "#KTHXBYE"] [("X", "hi")] "" false) =
      .ok (mkSt ["#LEMME", "SEE", "X", "#MKAY"] ["#KTHXBYE"] [("X", "hi")] ("" ++ "hi" ++ " ") false) ∧
    parse_variable_use (mkSt [] ["#LEMME", "SEE", "Y", "#MKAY", "#KTHXBYE"] [] "" false) =
      .err ("Syntax Error: Undefined variable " ++ "Y") ∧
    lookupVar (insertVar [] "X" "hi") "X" = some "hi" :=
  ⟨C3_define_then_use.1 [] ["#KTHXBYE"] "X" ["hi"] [] "" false 5 (by decide) (by simp) (by decide),
   C3_define_then_use.2.1 [] ["#KTHXBYE"] "X" "hi" [("X", "hi")] "" false (by decide) (by simp),
   C3_define_then_use.2.2.1 [] ["#KTHXBYE"] "Y" [] "" false (by decide) (by simp),
   C3_define_then_use.2.2.2 [] "X" "hi"⟩

/-- C4 amended: in parse_text the four punctuation tokens are appended
verbatim with no injected space while every other plain token gets
exactly one trailing space; but inside BOLD (and ITALICS, which shares
span_loop verbatim) every collected token, punctuation included, is
emitted with exactly one trailing space, as joinSpFrom shows token by
token. -/
theorem C4_spacing :
    (∀ s : LolState, strStartsWith (current_token s) "#" = false →
      (current_token s).data.all asciiChar = true →
      parse_text s = .ok (next_token { s with htmlOutput := s.htmlOutput ++ current_token s ++ (if isPunct (current_token s) then "" else " ") })) ∧
    (∀ (acc v : String), joinSpFrom acc [v] = acc ++ v ++ " ") ∧
    (∀ (A post vals : List String) (c0 : String)
       (V : List (String × String)) (H : String) (g : Bool) (fuel : Nat),
      (∀ v ∈ vals, eqIgnoreCase v "#MKAY" = false ∧ (v == "") = false) →
      eqIgnoreCase c0 "#MKAY" = true → post ≠ [] → vals.length < fuel →
      parse_bold fuel (mkSt A ("BOLD" :: (vals ++ c0 :: post)) V H g) =
        .ok (mkSt (A ++ "BOLD" :: (vals ++ [c0])) post V
              (joinSpFrom (H ++ "<b>") vals ++ "</b>") g)) := by
  refine ⟨?_, ?_, ?_⟩
  · intro s h1 h2
    unfold parse_text
    rw [if_pos (by simp [h1, h2])]
    by_cases hp : isPunct (current_token s) = true
    · rw [if_pos hp, hp]
      simp
    · rw [if_neg hp]
      simp only [eq_false_of_ne_true hp]
      simp
  · intro acc v
    rfl
  · intro A post vals c0 V H g fuel hv hc hp hf
    unfold parse_bold
    rw [match_token_mkSt "BOLD" "BOLD" A _ V H g (by decide) (by simp)]
    simp only [PResult.bind, mkSt_html, mkSt_set_html]
    rw [span_loop_run vals (A ++ ["BOLD"]) post c0 V (H ++ "<b>") g fuel hv hc hf]
    simp only [PResult.bind]
    rw [match_token_mkSt "#MKAY" c0 ((A ++ ["BOLD"]) ++ vals) post V (joinSpFrom (H ++ "<b>") vals) g
      hc hp]
    simp only [PResult.bind, mkSt_html, mkSt_set_html]
    simp [mkSt, List.append_assoc]

/-- Witness for C4 amended: the ASCII word token gets one trailing space
and the period none in parse_text, while inside a BOLD span the period
is followed by an injected space. -/
theorem C4_spacing_witness :
    parse_text (mkSt [] ["hi", "."] [] "" false) =
      .ok (next_token { mkSt [] ["hi", "."] [] "" false with htmlOutput := "" ++ current_token (mkSt [] ["hi", "."] [] "" false) ++ (if isPunct (current_token (mkSt [] ["hi", "."] [] "" false)) then "" else " ") }) ∧
    joinSpFrom "" ["."] = "" ++ "." ++ " " ∧
    parse_bold 5 (mkSt [] ["BOLD", ".", "#MKAY", "#KTHXBYE"] [] "" false) =
      .ok (mkSt ["BOLD", ".", "#MKAY"] ["#KTHXBYE"] []
            (joinSpFrom ("" ++ "<b>") ["."] ++ "</b>") false) :=
  ⟨C4_spacing.1 (mkSt [] ["hi", "."] [] "" false) (by decide) (by decide),
   C4_spacing.2.1 "" ".",
   C4_spacing.2.2 [] ["#KTHXBYE"] ["."] "#MKAY" [] "" false 5 (by decide) (by decide) (by simp)
     (by decide)⟩

/-- Once the cursor has collapsed to the empty sentinel at the end of the
stream, advancing leaves the state completely unchanged. -/
theorem next_token_exhausted (s : LolState) (hcur : s.current = "")
    (hidx : s.tokens.length ≤ s.currentIndex + 1) : next_token s = s := by
  unfold next_token
  rw [if_neg (by omega)]
  rcases s with ⟨t, i, c, v, h2, l⟩
  simp only at hcur
  rw [hcur]

/-- The token-collection loop never returns once the stream is exhausted:
the empty sentinel never equals the closing keyword and the state no
longer changes, so every amount of fuel is consumed. -/
theorem collect_loop_stuck (closing : String) (hc : eqIgnoreCase "" closing = false)
    (s : LolState) (hcur : s.current = "") (hidx : s.tokens.length ≤ s.currentIndex + 1) :
    ∀ (fuel : Nat) (acc : String), collect_loop fuel closing acc s = .diverge := by
  intro fuel
  induction fuel with
  | zero => intro acc; rfl
  | succ n ih =>
    intro acc
    unfold collect_loop
    rw [show current_token s = "" from hcur, hc]
    simp only [Bool.false_eq_true, if_false]
    rw [next_token_exhausted s hcur hidx]
    exact ih (acc ++ "" ++ " ")

/-- The HEAD-scanning loop never returns once the stream is exhausted:
the empty sentinel is neither OIC nor GIMMEH and skipping no longer moves
the cursor. -/
theorem head_loop_stuck (s : LolState) (hcur : s.current = "")
    (hidx : s.tokens.length ≤ s.currentIndex + 1) :
    ∀ fuel : Nat, head_loop fuel s = .diverge := by
  intro fuel
  induction fuel with
  | zero => rfl
  | succ n ih =>
    unfold head_loop
    rw [show current_token s = "" from hcur]
    rw [show eqIgnoreCase "" "#OIC" = false from by decide]
    rw [show eqIgnoreCase "" "#GIMMEH" = false from by decide]
    simp only [Bool.not_false, if_true, Bool.false_eq_true, if_false]
    rw [next_token_exhausted s hcur hidx]
    exact ih

/-- A truncated comment: the Comment collection loop spins forever on the
exhausted stream. -/
theorem C5_comment_diverges (n : Nat) :
    compile "#HAI #OBTW x" (n + 2) = .diverge := by
  have e : compile "#HAI #OBTW x" (n + 2) =
      PResult.bind
        (PResult.bind
          (PResult.bind
            (collect_loop n "#TLDR" "x " (LolState.mk ["#HAI", "#OBTW", "x"] 2 "" [] "" false))
            (fun p => match_token "#TLDR" p.2))
          (comment_star (n + 1)))
        (fun s => PResult.bind (parse_head (n + 2) s)
          (fun s => PResult.bind (parse_body (n + 2) s) (fun s => match_token "#KTHXBYE" s))) := rfl
  rw [e, collect_loop_stuck "#TLDR" (by decide) _ rfl (by decide) n "x "]
  rfl

/-- A truncated title: the Title collection loop spins forever on the
exhausted stream. -/
theorem C5_title_diverges (n : Nat) :
    compile "#HAI #MAEK HEAD #GIMMEH TITLE x" (n + 2) = .diverge := by
  have e : compile "#HAI #MAEK HEAD #GIMMEH TITLE x" (n + 2) =
      PResult.bind
        (PResult.bind
          (PResult.bind
            (PResult.bind
              (collect_loop n "#MKAY" "x "
                (LolState.mk ["#HAI", "#MAEK", "HEAD", "#GIMMEH", "TITLE", "x"] 5 "" [] "" false))
              (fun p => PResult.bind (match_token "#MKAY" p.2)
                (fun s => .ok { s with htmlOutput := s.htmlOutput ++ "<html><head><title>" ++ trimStr p.1 ++ "</title></head><body>\n" })))
            (head_loop (n + 1)))
          (fun s => match_token "#OIC" s))
        (fun s => PResult.bind (parse_body (n + 2) s) (fun s => match_token "#KTHXBYE" s)) := rfl
  rw [e, collect_loop_stuck "#MKAY" (by decide) _ rfl (by decide) n "x "]
  rfl

/-- A truncated head: the HEAD-scanning loop spins forever on the
exhausted stream. -/
theorem C5_head_diverges (n : Nat) :
    compile "#HAI #MAEK HEAD x" (n + 2) = .diverge := by
  have e : compile "#HAI #MAEK HEAD x" (n + 2) =
      PResult.bind
        (PResult.bind
          (head_loop (n + 1) (LolState.mk ["#HAI", "#MAEK", "HEAD", "x"] 3 "" [] "" false))
          (fun s => match_token "#OIC" s))
        (fun s => PResult.bind (parse_body (n + 2) s) (fun s => match_token "#KTHXBYE" s)) := rfl
  rw [e, head_loop_stuck _ rfl (by decide) (n + 1)]
  rfl

/-- A truncated variable definition: the value collection loop spins
forever on the exhausted stream. -/
theorem C5_vardefine_diverges (n : Nat) :
    compile "#HAI #I HAZ V #IT IZ x" (n + 2) = .diverge := by
  have e : compile "#HAI #I HAZ V #IT IZ x" (n + 2) =
      PResult.bind
        (PResult.bind
          (PResult.bind
            (PResult.bind
              (collect_loop n "#MKAY" "x "
                (LolState.mk ["#HAI", "#I", "HAZ", "V", "#IT", "IZ", "x"] 6 "" [] "" false))
              (fun p => match_token "#MKAY" { p.2 with vars := insertVar p.2.vars "V" (trimStr p.1) }))
            (body_loop (n + 1)))
          (fun s => .ok { s with htmlOutput := s.htmlOutput ++ "</body></html>" }))
        (fun s => match_token "#KTHXBYE" s) := rfl
  rw [e, collect_loop_stuck "#MKAY" (by decide) _ rfl (by decide) n "x "]
  rfl

/-- C5 is a code bug: the grammar driver does not always terminate. On
each of these four truncated inputs the Comment, Title, Head and
VarDefine token-collection loops run forever (the compilation returns
diverge for every amount of fuel), because unlike the body and span
loops they never test for the end-of-stream sentinel. -/
theorem C5_driver_nontermination : ∀ fuel : Nat,
    compile "#HAI #OBTW x" fuel = .diverge ∧
    compile "#HAI #MAEK HEAD #GIMMEH TITLE x" fuel = .diverge ∧
    compile "#HAI #MAEK HEAD x" fuel = .diverge ∧
    compile "#HAI #I HAZ V #IT IZ x" fuel = .diverge := by
  intro fuel
  refine ⟨?_, ?_, ?_, ?_⟩
  · rcases fuel with _ | (_ | n)
    · decide
    · decide
    · exact C5_comment_diverges n
  · rcases fuel with _ | (_ | n)
    · decide
    · decide
    · exact C5_title_diverges n
  · rcases fuel with _ | (_ | n)
    · decide
    · decide
    · exact C5_head_diverges n
  · rcases fuel with _ | (_ | n)
    · decide
    · decide
    · exact C5_vardefine_diverges n

/-- Inversion of a successful sequencing step. -/
theorem PResult.bind_ok {α β : Type} {p : PResult α} {k : α → PResult β} {b : β}
    (h : p.bind k = .ok b) : ∃ a, p = .ok a ∧ k a = .ok b := by
  cases p with
  | ok a => exact ⟨a, rfl, h⟩
  | err e => exact absurd h (by simp [PResult.bind])
  | diverge => exact absurd h (by simp [PResult.bind])

/-- Advancing the cursor never touches the ghost flag. -/
theorem listInvoked_next (s : LolState) : (next_token s).listInvoked = s.listInvoked := by
  unfold next_token
  split <;> rfl

/-- match_token never touches the ghost flag. -/
theorem listInvoked_match {e : String} {s s2 : LolState} (h : match_token e s = .ok s2) :
    s2.listInvoked = s.listInvoked := by
  unfold match_token at h
  split at h
  · injection h with h2
    rw [← h2]
    exact listInvoked_next s
  · simp at h

/-- parse_text never touches the ghost flag. -/
theorem listInvoked_text {s s2 : LolState} (h : parse_text s = .ok s2) :
    s2.listInvoked = s.listInvoked := by
  unfold parse_text at h
  split at h
  · split at h <;> (injection h with h2; rw [← h2]; exact listInvoked_next _)
  · simp at h

/-- parse_newline never touches the ghost flag. -/
theorem listInvoked_newline {s s2 : LolState} (h : parse_newline s = .ok s2) :
    s2.listInvoked = s.listInvoked := by
  unfold parse_newline at h
  rcases PResult.bind_ok h with ⟨a, ha, hb⟩
  injection hb with h2
  rw [← h2]
  show a.listInvoked = s.listInvoked
  exact listInvoked_match ha

/-- parse_audio never touches the ghost flag. -/
theorem listInvoked_audio {s s2 : LolState} (h : parse_audio s = .ok s2) :
    s2.listInvoked = s.listInvoked := by
  unfold parse_audio at h
  rcases PResult.bind_ok h with ⟨a, ha, h⟩
  rcases PResult.bind_ok h with ⟨b, hb, h⟩
  injection h with h2
  rw [← h2]
  show b.listInvoked = s.listInvoked
  exact (listInvoked_match hb).trans ((listInvoked_next a).trans (listInvoked_match ha))

/-- parse_video never touches the ghost flag. -/
theorem listInvoked_video {s s2 : LolState} (h : parse_video s = .ok s2) :
    s2.listInvoked = s.listInvoked := by
  unfold parse_video at h
  rcases PResult.bind_ok h with ⟨a, ha, h⟩
  rcases PResult.bind_ok h with ⟨b, hb, h⟩
  injection h with h2
  rw [← h2]
  show b.listInvoked = s.listInvoked
  exact (listInvoked_match hb).trans ((listInvoked_next a).trans (listInvoked_match ha))

/-- parse_variable_use never touches the ghost flag. -/
theorem listInvoked_varuse {s s2 : LolState} (h : parse_variable_use s = .ok s2) :
    s2.listInvoked = s.listInvoked := by
  unfold parse_variable_use at h
  rcases PResult.bind_ok h with ⟨a, ha, h⟩
  rcases PResult.bind_ok h with ⟨b, hb, h⟩
  rcases PResult.bind_ok h with ⟨c, hc, h⟩
  split at h
  · injection h with h2
    rw [← h2]
    show c.listInvoked = s.listInvoked
    exact (listInvoked_match hc).trans ((listInvoked_next b).trans
      ((listInvoked_match hb).trans (listInvoked_match ha)))
  · simp at h

/-- collect_loop never touches the ghost flag. -/
theorem listInvoked_collect {closing : String} :
    ∀ (fuel : Nat) (acc : String) (s : LolState) (a : String × LolState),
      collect_loop fuel closing acc s = .ok a → a.2.listInvoked = s.listInvoked := by
  intro fuel
  induction fuel with
  | zero =>
    intro acc s a h
    simp [collect_loop] at h
  | succ n ih =>
    intro acc s a h
    unfold collect_loop at h
    split at h
    · injection h with h2
      rw [← h2]
    · exact (ih _ _ _ h).trans (listInvoked_next s)

/-- parse_title never touches the ghost flag. -/
theorem listInvoked_title {fuel : Nat} {s s2 : LolState} (h : parse_title fuel s = .ok s2) :
    s2.listInvoked = s.listInvoked := by
  unfold parse_title at h
  rcases PResult.bind_ok h with ⟨a, ha, h⟩
  rcases PResult.bind_ok h with ⟨b, hb, h⟩
  rcases PResult.bind_ok h with ⟨p, hp, h⟩
  rcases PResult.bind_ok h with ⟨c, hc, h⟩
  injection h with h2
  rw [← h2]
  show c.listInvoked = s.listInvoked
  exact (listInvoked_match hc).trans ((listInvoked_collect _ _ _ _ hp).trans
    ((listInvoked_match hb).trans (listInvoked_match ha)))

/-- parse_comment never touches the ghost flag. -/
theorem listInvoked_comment {fuel : Nat} {s s2 : LolState} (h : parse_comment fuel s = .ok s2) :
    s2.listInvoked = s.listInvoked := by
  unfold parse_comment at h
  rcases PResult.bind_ok h with ⟨a, ha, h⟩
  rcases PResult.bind_ok h with ⟨p, hp, h⟩
  exact (listInvoked_match h).trans ((listInvoked_collect _ _ _ _ hp).trans (listInvoked_match ha))

/-- parse_variable_define never touches the ghost flag. -/
theorem listInvoked_vardefine {fuel : Nat} {s s2 : LolState}
    (h : parse_variable_define fuel s = .ok s2) : s2.listInvoked = s.listInvoked := by
  unfold parse_variable_define at h
  rcases PResult.bind_ok h with ⟨a, ha, h⟩
  rcases PResult.bind_ok h with ⟨b, hb, h⟩
  rcases PResult.bind_ok h with ⟨c, hc, h⟩
  rcases PResult.bind_ok h with ⟨d, hd, h⟩
  rcases PResult.bind_ok h with ⟨p, hp, h⟩
  have e1 := listInvoked_match h
  rw [e1]
  show p.2.listInvoked = s.listInvoked
  exact (listInvoked_collect _ _ _ _ hp).trans ((listInvoked_match hd).trans
    ((listInvoked_match hc).trans ((listInvoked_next b).trans
      ((listInvoked_match hb).trans (listInvoked_match ha)))))

/-- span_loop never touches the ghost flag. -/
theorem listInvoked_span : ∀ (fuel : Nat) (s s2 : LolState),
    span_loop fuel s = .ok s2 → s2.listInvoked = s.listInvoked := by
  intro fuel
  induction fuel with
  | zero => intro s s2 h; simp [span_loop] at h
  | succ n ih =>
    intro s s2 h
    unfold span_loop at h
    split at h
    · have h3 := ih _ _ h
      rw [listInvoked_next] at h3
      exact h3
    · injection h with h2
      rw [← h2]

/-- parse_bold never touches the ghost flag. -/
theorem listInvoked_bold {fuel : Nat} {s s2 : LolState} (h : parse_bold fuel s = .ok s2) :
    s2.listInvoked = s.listInvoked := by
  unfold parse_bold at h
  rcases PResult.bind_ok h with ⟨a, ha, h⟩
  rcases PResult.bind_ok h with ⟨b, hb, h⟩
  rcases PResult.bind_ok h with ⟨c, hc, h⟩
  injection h with h2
  rw [← h2]
  show c.listInvoked = s.listInvoked
  have e2raw := listInvoked_span _ _ _ hb
  have e2 : b.listInvoked = a.listInvoked := e2raw
  exact (listInvoked_match hc).trans (e2.trans (listInvoked_match ha))

/-- parse_italics never touches the ghost flag. -/
theorem listInvoked_italics {fuel : Nat} {s s2 : LolState} (h : parse_italics fuel s = .ok s2) :
    s2.listInvoked = s.listInvoked := by
  unfold parse_italics at h
  rcases PResult.bind_ok h with ⟨a, ha, h⟩
  rcases PResult.bind_ok h with ⟨b, hb, h⟩
  rcases PResult.bind_ok h with ⟨c, hc, h⟩
  injection h with h2
  rw [← h2]
  show c.listInvoked = s.listInvoked
  have e2raw := listInvoked_span _ _ _ hb
  have e2 : b.listInvoked = a.listInvoked := e2raw
  exact (listInvoked_match hc).trans (e2.trans (listInvoked_match ha))

/-- parse_inner_text never touches the ghost flag: none of its dispatch
targets is parse_list. -/
theorem listInvoked_inner_text {fuel : Nat} {s s2 : LolState}
    (h : parse_inner_text fuel s = .ok s2) : s2.listInvoked = s.listInvoked := by
  unfold parse_inner_text at h
  split at h
  · split at h
    · exact (listInvoked_bold h).trans (listInvoked_next s)
    · exact (listInvoked_italics h).trans (listInvoked_next s)
    · exact (listInvoked_newline h).trans (listInvoked_next s)
    · exact (listInvoked_audio h).trans (listInvoked_next s)
    · exact (listInvoked_video h).trans (listInvoked_next s)
    · simp at h
  · exact listInvoked_varuse h
  · exact listInvoked_vardefine h
  · exact listInvoked_text h

/-- The paragraph inner loop never touches the ghost flag. -/
theorem listInvoked_inner_para : ∀ (fuel : Nat) (s s2 : LolState),
    inner_paragraph_loop fuel s = .ok s2 → s2.listInvoked = s.listInvoked := by
  intro fuel
  induction fuel with
  | zero => intro s s2 h; simp [inner_paragraph_loop] at h
  | succ n ih =>
    intro s s2 h
    unfold inner_paragraph_loop at h
    split at h
    · rcases PResult.bind_ok h with ⟨a, ha, h⟩
      exact (ih _ _ h).trans (listInvoked_inner_text ha)
    · injection h with h2
      rw [← h2]

/-- parse_paragraph never touches the ghost flag. -/
theorem listInvoked_paragraph {fuel : Nat} {s s2 : LolState}
    (h : parse_paragraph fuel s = .ok s2) : s2.listInvoked = s.listInvoked := by
  unfold parse_paragraph at h
  rcases PResult.bind_ok h with ⟨a, ha, h⟩
  rcases PResult.bind_ok h with ⟨b, hb, h⟩
  rcases PResult.bind_ok h with ⟨c, hc, h⟩
  exact (listInvoked_match h).trans ((listInvoked_inner_para _ _ _ hc).trans
    ((listInvoked_match hb).trans (listInvoked_match ha)))

/-- The body dispatch loop never touches the ghost flag: parse_list is
not among its dispatch targets. -/
theorem listInvoked_body_loop : ∀ (fuel : Nat) (s s2 : LolState),
    body_loop fuel s = .ok s2 → s2.listInvoked = s.listInvoked := by
  intro fuel
  induction fuel with
  | zero => intro s s2 h; simp [body_loop] at h
  | succ n ih =>
    intro s s2 h
    unfold body_loop at h
    split at h
    · rcases PResult.bind_ok h with ⟨a, ha, h⟩
      refine (ih _ _ h).trans ?_
      split at ha
      · exact listInvoked_paragraph ha
      · exact listInvoked_inner_text ha
      · exact listInvoked_varuse ha
      · exact listInvoked_vardefine ha
      · exact listInvoked_text ha
    · injection h with h2
      rw [← h2]

/-- parse_body never touches the ghost flag. -/
theorem listInvoked_body {fuel : Nat} {s s2 : LolState} (h : parse_body fuel s = .ok s2) :
    s2.listInvoked = s.listInvoked := by
  unfold parse_body at h
  rcases PResult.bind_ok h with ⟨a, ha, h⟩
  injection h with h2
  rw [← h2]
  show a.listInvoked = s.listInvoked
  exact listInvoked_body_loop _ _ _ ha

/-- The comment repetition loop never touches the ghost flag. -/
theorem listInvoked_comment_star : ∀ (fuel : Nat) (s s2 : LolState),
    comment_star fuel s = .ok s2 → s2.listInvoked = s.listInvoked := by
  intro fuel
  induction fuel with
  | zero => intro s s2 h; simp [comment_star] at h
  | succ n ih =>
    intro s s2 h
    unfold comment_star at h
    split at h
    · rcases PResult.bind_ok h with ⟨a, ha, h⟩
      exact (ih _ _ h).trans (listInvoked_comment ha)
    · injection h with h2
      rw [← h2]

/-- The HEAD-scanning loop never touches the ghost flag. -/
theorem listInvoked_head_loop : ∀ (fuel : Nat) (s s2 : LolState),
    head_loop fuel s = .ok s2 → s2.listInvoked = s.listInvoked := by
  intro fuel
  induction fuel with
  | zero => intro s s2 h; simp [head_loop] at h
  | succ n ih =>
    intro s s2 h
    unfold head_loop at h
    split at h
    · split at h
      · rcases PResult.bind_ok h with ⟨a, ha, h⟩
        exact (ih _ _ h).trans (listInvoked_title ha)
      · exact (ih _ _ h).trans (listInvoked_next s)
    · injection h with h2
      rw [← h2]

/-- parse_head never touches the ghost flag. -/
theorem listInvoked_head {fuel : Nat} {s s2 : LolState} (h : parse_head fuel s = .ok s2) :
    s2.listInvoked = s.listInvoked := by
  unfold parse_head at h
  split at h
  · rcases PResult.bind_ok h with ⟨a, ha, h⟩
    rcases PResult.bind_ok h with ⟨b, hb, h⟩
    rcases PResult.bind_ok h with ⟨c, hc, h⟩
    exact (listInvoked_match h).trans ((listInvoked_head_loop _ _ _ hc).trans
      ((listInvoked_match hb).trans (listInvoked_match ha)))
  · injection h with h2
    rw [← h2]

/-- The whole Program production never touches the ghost flag. -/
theorem listInvoked_lolcode {fuel : Nat} {s s2 : LolState}
    (h : parse_lolcode fuel s = .ok s2) : s2.listInvoked = s.listInvoked := by
  unfold parse_lolcode at h
  rcases PResult.bind_ok h with ⟨a, ha, h⟩
  rcases PResult.bind_ok h with ⟨b, hb, h⟩
  rcases PResult.bind_ok h with ⟨c, hc, h⟩
  rcases PResult.bind_ok h with ⟨d, hd, h⟩
  exact (listInvoked_match h).trans ((listInvoked_body hd).trans
    ((listInvoked_head hc).trans ((listInvoked_comment_star _ _ _ hb).trans
      (listInvoked_match ha))))

/-- C9 amended: a complete compilation never invokes the List or
ListItem productions. This is witnessed by the ghost flag, which only
parse_list sets: it is false in every state a successful compilation can
produce. (Because plain tokens are emitted verbatim by parse_text, the
buffer can nevertheless contain the text of an unordered-list tag.) -/
theorem C9_list_unreachable (source : String) (fuel : Nat) (st : LolState)
    (h : compile source fuel = .ok st) : st.listInvoked = false := by
  unfold compile at h
  split at h
  · simp at h
  · split at h
    · simp at h
    · exact listInvoked_lolcode h

/-- Witness for C9 amended at a small successful compilation. -/
theorem C9_list_unreachable_witness :
    (LolState.mk ["#HAI", "x", "#KTHXBYE"] 2 "" [] "x </body></html>" false).listInvoked = false :=
  C9_list_unreachable "#HAI x #KTHXBYE" 10 _ (by decide)

/-- A character a plain token may contain: not whitespace and not the
special # character (any other character is accumulated into the pending
lexeme by the lexer). -/
def plainChar (c : Char) : Bool := !is_whitespace c && !is_special c

/-- Well-formedness of a token emitted by the lexer: a special token is a
# followed by urlChar characters and passes the acceptance test; any
other token is non-empty and consists of plain characters only. -/
def goodToken (t : String) : Bool :=
  match t.data with
  | [] => false
  | c :: u => if c == '#' then u.all urlChar && tokenAccepted t else (c :: u).all plainChar

/-- The character list of a singleton string. -/
theorem strSingleton_data (c : Char) : (String.singleton c).data = [c] := rfl

/-- A non-empty all-plain token is well formed. -/
theorem goodToken_plain (t : String) (h1 : t.data.all plainChar = true) (h2 : t.data ≠ []) :
    goodToken t = true := by
  unfold goodToken
  rcases hd : t.data with _ | ⟨c, u⟩
  · exact absurd hd h2
  · rw [hd] at h1
    by_cases hc : (c == '#') = true
    · have : c = '#' := eq_of_beq hc
      subst this
      simp [List.all_cons, plainChar, is_special] at h1
    · simp only [hc, Bool.false_eq_true, if_false]
      exact h1

/-- An accepted special candidate is well formed. -/
theorem goodToken_special (t : String) (u : List Char) (h1 : t.data = '#' :: u)
    (h2 : u.all urlChar = true) (h3 : tokenAccepted t = true) : goodToken t = true := by
  unfold goodToken
  rw [h1]
  simp [h2, h3]

/-- Flushing the pending lexeme preserves well-formedness of the token
list. -/
theorem flushTok_all (toks : List String) (lexeme : String)
    (h1 : toks.all goodToken = true) (h2 : lexeme.data.all plainChar = true) :
    (flushTok toks lexeme).all goodToken = true := by
  unfold flushTok
  by_cases he : (lexeme == "") = true
  · simp [he, h1]
  · simp only [he, Bool.false_eq_true, if_false, List.all_append, Bool.and_eq_true]
    refine ⟨h1, ?_⟩
    have hne : lexeme.data ≠ [] := by
      intro hd
      apply he
      have : lexeme = ⟨[]⟩ := by rw [← hd, strMk_data]
      rw [this]
      rfl
    simp [goodToken_plain lexeme h2 hne]

/-- Soundness of the lexer invariant: every token list a successful
tokenizeAux run returns consists of well-formed tokens, provided the
pending lexeme and the already-emitted tokens satisfy the invariant. -/
theorem tokenizeAux_good (cs : List Char) :
    ∀ (mode : Bool) (lexeme : String) (toks ts : List String),
      (mode = false → lexeme.data.all plainChar = true) →
      (mode = true → ∃ u, lexeme.data = '#' :: u ∧ u.all urlChar = true) →
      toks.all goodToken = true →
      tokenizeAux cs mode lexeme toks = .ok ts → ts.all goodToken = true := by
  induction cs with
  | nil =>
    intro mode lexeme toks ts hplain hspec htoks h
    cases mode
    · unfold tokenizeAux at h
      injection h with h2
      rw [← h2]
      exact flushTok_all toks lexeme htoks (hplain rfl)
    · unfold tokenizeAux at h
      split at h
      · injection h with h2
        rw [← h2]
        obtain ⟨u, hu1, hu2⟩ := hspec rfl
        simp only [List.all_append, Bool.and_eq_true]
        refine ⟨htoks, ?_⟩
        simp [goodToken_special lexeme u hu1 hu2 (by assumption)]
      · simp at h
  | cons c cs ih =>
    intro mode lexeme toks ts hplain hspec htoks h
    cases mode
    · unfold tokenizeAux at h
      by_cases hw : is_whitespace c = true
      · rw [if_pos hw] at h
        exact ih false "" _ ts (fun _ => rfl) (fun hc => nomatch hc)
          (flushTok_all toks lexeme htoks (hplain rfl)) h
      · rw [if_neg (by simp [hw])] at h
        by_cases hs : is_special c = true
        · rw [if_pos hs] at h
          have hceq : c = '#' := eq_of_beq hs
          refine ih true (String.singleton c) _ ts (fun hc => nomatch hc)
            (fun _ => ⟨[], by rw [strSingleton_data, hceq], rfl⟩)
            (flushTok_all toks lexeme htoks (hplain rfl)) h
        · rw [if_neg (by simp [hs])] at h
          refine ih false (lexeme.push c) _ ts (fun _ => ?_) (fun hc => nomatch hc) htoks h
          rw [strPush_data]
          simp only [List.all_append, Bool.and_eq_true]
          exact ⟨hplain rfl, by simp [plainChar, hw, hs]⟩
    · unfold tokenizeAux at h
      by_cases hu : urlChar c = true
      · rw [if_pos hu] at h
        obtain ⟨u, hu1, hu2⟩ := hspec rfl
        refine ih true (lexeme.push c) _ ts (fun hc => nomatch hc)
          (fun _ => ⟨u ++ [c], ?_, ?_⟩) htoks h
        · rw [strPush_data, hu1]
          rfl
        · simp [List.all_append, hu2, hu]
      · rw [if_neg (by simp [hu])] at h
        split at h
        · obtain ⟨u, hu1, hu2⟩ := hspec rfl
          have hlexgood : goodToken lexeme = true :=
            goodToken_special lexeme u hu1 hu2 (by assumption)
          have htoks2 : (toks ++ [lexeme]).all goodToken = true := by
            simp [List.all_append, htoks, hlexgood]
          by_cases hw : is_whitespace c = true
          · rw [if_pos hw] at h
            exact ih false "" _ ts (fun _ => rfl) (fun hc => nomatch hc) htoks2 h
          · rw [if_neg (by simp [hw])] at h
            by_cases hs : is_special c = true
            · rw [if_pos hs] at h
              have hceq : c = '#' := eq_of_beq hs
              exact ih true (String.singleton c) _ ts (fun hc => nomatch hc)
                (fun _ => ⟨[], by rw [strSingleton_data, hceq], rfl⟩) htoks2 h
            · rw [if_neg (by simp [hs])] at h
              refine ih false (String.singleton c) _ ts (fun _ => ?_)
                (fun hc => nomatch hc) htoks2 h
              rw [strSingleton_data]
              simp [plainChar, hw, hs]
        · simp at h

/-- The character list of an appended string. -/
theorem strData_append (a b : String) : (a ++ b).data = a.data ++ b.data := by
  cases a
  cases b
  rfl

/-- Folding push over a character list appends it to the string. -/
theorem foldl_push (u : List Char) : ∀ (s : String), u.foldl String.push s = ⟨s.data ++ u⟩ := by
  induction u with
  | nil =>
    intro s
    show s = _
    rw [List.append_nil, strMk_data]
  | cons c u ih =>
    intro s
    show u.foldl String.push (s.push c) = _
    rw [ih (s.push c), strPush_data]
    simp

/-- The lexer accumulates a run of plain characters into the pending
lexeme one by one. -/
theorem consume_plain (u : List Char) :
    ∀ (cs : List Char) (lexeme : String) (toks : List String),
      u.all plainChar = true →
      tokenizeAux (u ++ cs) false lexeme toks
        = tokenizeAux cs false (u.foldl String.push lexeme) toks := by
  induction u with
  | nil => intro cs lexeme toks h; rfl
  | cons c u ih =>
    intro cs lexeme toks h
    simp only [List.all_cons, Bool.and_eq_true] at h
    obtain ⟨hc, hu⟩ := h
    simp only [plainChar, Bool.and_eq_true, Bool.not_eq_eq_eq_not, Bool.not_true] at hc
    obtain ⟨hw, hs⟩ := hc
    show tokenizeAux (c :: (u ++ cs)) false lexeme toks = _
    conv_lhs => unfold tokenizeAux
    rw [if_neg (by simp [hw]), if_neg (by simp [hs])]
    exact ih cs (lexeme.push c) toks hu

/-- The greedy candidate loop accumulates a run of urlChar characters
into the candidate one by one. -/
theorem consume_url (u : List Char) :
    ∀ (cs : List Char) (tok : String) (toks : List String),
      u.all urlChar = true →
      tokenizeAux (u ++ cs) true tok toks
        = tokenizeAux cs true (u.foldl String.push tok) toks := by
  induction u with
  | nil => intro cs tok toks h; rfl
  | cons c u ih =>
    intro cs tok toks h
    simp only [List.all_cons, Bool.and_eq_true] at h
    obtain ⟨hc, hu⟩ := h
    show tokenizeAux (c :: (u ++ cs)) true tok toks = _
    conv_lhs => unfold tokenizeAux
    rw [if_pos hc]
    exact ih cs (tok.push c) toks hu

/-- A well-formed token is not the empty string (Boolean form). -/
theorem goodToken_ne_empty (t : String) (ht : goodToken t = true) : (t == "") = false := by
  by_cases h2 : (t == "") = true
  · have he : t = "" := eq_of_beq h2
    subst he
    simp [goodToken] at ht
  · simpa using h2

/-- Scanning one well-formed token at the very end of the input
reproduces exactly that token. -/
theorem consume_good_end (t : String) (ht : goodToken t = true) (toks : List String) :
    tokenizeAux t.data false "" toks = .ok (toks ++ [t]) := by
  have hne : (t == "") = false := goodToken_ne_empty t ht
  unfold goodToken at ht
  split at ht
  · simp at ht
  · rename_i c u hd
    by_cases hc : (c == '#') = true
    · rw [if_pos hc] at ht
      simp only [Bool.and_eq_true] at ht
      obtain ⟨hall, hacc⟩ := ht
      have hceq : c = '#' := eq_of_beq hc
      subst hceq
      rw [hd]
      show tokenizeAux ('#' :: u) false "" toks = _
      conv_lhs => unfold tokenizeAux
      rw [if_neg (by decide), if_pos (by decide)]
      show tokenizeAux u true (String.singleton '#') toks = _
      rw [show u = u ++ ([] : List Char) from by simp]
      rw [consume_url u [] (String.singleton '#') toks (by simpa using hall)]
      rw [foldl_push, strSingleton_data]
      rw [show (['#'] ++ u : List Char) = t.data from by simp [hd]]
      rw [strMk_data]
      conv_lhs => unfold tokenizeAux
      rw [if_pos hacc]
    · rw [if_neg (by simp [hc])] at ht
      rw [hd]
      rw [show (c :: u : List Char) = (c :: u) ++ ([] : List Char) from by simp]
      rw [consume_plain (c :: u) [] "" toks ht]
      rw [foldl_push]
      rw [show (("" : String).data ++ (c :: u) : List Char) = t.data from by simp [hd]]
      rw [strMk_data]
      conv_lhs => unfold tokenizeAux
      unfold flushTok
      rw [hne]
      simp

/-- Scanning one well-formed token followed by a space hands the rest of
the input back to the lexer with that token emitted. -/
theorem consume_good_space (t : String) (ht : goodToken t = true) (cs : List Char)
    (toks : List String) :
    tokenizeAux (t.data ++ ' ' :: cs) false "" toks = tokenizeAux cs false "" (toks ++ [t]) := by
  have hne : (t == "") = false := goodToken_ne_empty t ht
  unfold goodToken at ht
  split at ht
  · simp at ht
  · rename_i c u hd
    by_cases hc : (c == '#') = true
    · rw [if_pos hc] at ht
      simp only [Bool.and_eq_true] at ht
      obtain ⟨hall, hacc⟩ := ht
      have hceq : c = '#' := eq_of_beq hc
      subst hceq
      rw [hd]
      show tokenizeAux ('#' :: (u ++ ' ' :: cs)) false "" toks = _
      conv_lhs => unfold tokenizeAux
      rw [if_neg (by decide), if_pos (by decide)]
      show tokenizeAux (u ++ ' ' :: cs) true (String.singleton '#') toks = _
      rw [consume_url u (' ' :: cs) (String.singleton '#') toks hall]
      rw [foldl_push, strSingleton_data]
      rw [show (['#'] ++ u : List Char) = t.data from by simp [hd]]
      rw [strMk_data]
      conv_lhs => unfold tokenizeAux
      rw [if_neg (by decide), if_pos hacc, if_pos (by decide)]
    · rw [if_neg (by simp [hc])] at ht
      rw [hd]
      rw [consume_plain (c :: u) (' ' :: cs) "" toks ht]
      rw [foldl_push]
      rw [show (("" : String).data ++ (c :: u) : List Char) = t.data from by simp [hd]]
      rw [strMk_data]
      show tokenizeAux (' ' :: cs) false t toks = _
      conv_lhs => unfold tokenizeAux
      rw [if_pos (by decide)]
      unfold flushTok
      rw [hne]
      simp

/-- Joining a token list with single spaces, as the C6 claim describes. -/
def joinTokens : List String → String
  | [] => ""
  | t :: ts => if ts.isEmpty then t else t ++ " " ++ joinTokens ts

/-- Re-lexing a list of well-formed tokens joined by single spaces
reproduces exactly that token list. -/
theorem relex (ts : List String) : ∀ (toks : List String), ts.all goodToken = true →
    tokenizeAux (joinTokens ts).data false "" toks = .ok (toks ++ ts) := by
  induction ts with
  | nil =>
    intro toks h
    simp [joinTokens, tokenizeAux, flushTok]
  | cons t ts ih =>
    intro toks h
    simp only [List.all_cons, Bool.and_eq_true] at h
    obtain ⟨ht, hts⟩ := h
    rcases ts with _ | ⟨t2, ts2⟩
    · rw [show joinTokens [t] = t from by simp [joinTokens]]
      rw [consume_good_end t ht toks]
    · have hj : (joinTokens (t :: t2 :: ts2)).data
          = t.data ++ ' ' :: (joinTokens (t2 :: ts2)).data := by
        rw [show joinTokens (t :: t2 :: ts2) = t ++ " " ++ joinTokens (t2 :: ts2) from by
          simp [joinTokens]]
        rw [strData_append, strData_append]
        simp
      rw [hj, consume_good_space t ht _ toks, ih (toks ++ [t]) hts]
      simp

/-- C6: lexing is idempotent. If tokenize succeeds on a source, then
joining the produced tokens with single spaces and tokenizing again
yields exactly the same token sequence. -/
theorem C6_idempotent_lexing (x : String) (ts : List String) (h : tokenize x = .ok ts) :
    tokenize (joinTokens ts) = .ok ts := by
  have hg : ts.all goodToken = true :=
    tokenizeAux_good x.data false "" [] ts (fun _ => rfl) (fun hc => nomatch hc) rfl h
  unfold tokenize
  have h2 := relex ts [] hg
  simpa using h2

/-- Witness for C6 at a source whose original whitespace differs from the
single-space join. -/
theorem C6_idempotent_lexing_witness :
    tokenize (joinTokens ["#HAI", "x"]) = .ok ["#HAI", "x"] :=
  C6_idempotent_lexing "#HAI  x" ["#HAI", "x"] (by decide)

/-- C10: every token in the sequence returned by a successful tokenize is
a non-empty string, so the empty token returned by the exhausted cursor
can never collide with a real token. -/
theorem C10_tokens_nonempty (source : String) (ts : List String)
    (h : tokenize source = .ok ts) : ts.all (fun t => !(t == "")) = true := by
  have hg : ts.all goodToken = true :=
    tokenizeAux_good source.data false "" [] ts (fun _ => rfl) (fun hc => nomatch hc) rfl h
  rw [List.all_eq_true] at hg ⊢
  intro t htmem
  have hgt := hg t htmem
  simp only [Bool.not_eq_eq_eq_not, Bool.not_true]
  exact goodToken_ne_empty t hgt

/-- Witness for C10 at a concrete source. -/
theorem C10_tokens_nonempty_witness :
    (["#HAI", "x"].all (fun t => !(t == ""))) = true :=
  C10_tokens_nonempty "#HAI x" ["#HAI", "x"] (by decide)
